import Mathlib

/-!
Verification of the export pipeline of the vscode-code-review repository.

The development shallowly embeds the two observed implementation variants of
`ExportFactory` (`src/src/export-factory.ts`, the handler-map variant, and
`src/unnamed/part_000`, the duplicated-methods variant).  Strings are modelled
as Lean `String`s; the JavaScript string helpers used by the code
(`split`, `join`, `substring`, `length`) are modelled by structurally
recursive functions over the underlying character lists so that every
definition evaluates by kernel reduction.  `os.EOL` is modelled as `"\n"`.
-/

namespace CodeReview

/-- Model of `os.EOL` (Linux line ending). -/
def EOL : String := "\n"

/-- Model of JavaScript `String.prototype.split` with a single-character
separator, on character lists: `"a|b".split('|') = ["a","b"]`,
`"".split('|') = [""]`. -/
def splitOnChar (sep : Char) : List Char → List (List Char)
  | [] => [[]]
  | c :: rest =>
    let r := splitOnChar sep rest
    if c = sep then [] :: r
    else (c :: r.headD []) :: r.tail

/-- `split` lifted to `String`. -/
def jsSplit (s : String) (sep : Char) : List String :=
  (splitOnChar sep s.data).map String.mk

/-- Model of JavaScript `Array.prototype.join(sep)`. -/
def joinWith (sep : String) : List String → String
  | [] => ""
  | [s] => s
  | s :: rest => s ++ sep ++ joinWith sep rest

/-- Model of JavaScript `substring(0, n)`: the first `n` characters. -/
def strTake (s : String) (n : Nat) : String := String.mk (s.data.take n)

/-- Model of JavaScript `Number()` on a digit string (the only shape the
pipeline feeds it): `some` of the value for a non-empty digit string,
`none` otherwise. -/
def natOfChars : List Char → Option Nat
  | [] => none
  | l =>
    l.foldl
      (fun acc c =>
        match acc with
        | none => none
        | some n => if c.isDigit then some (n * 10 + (c.toNat - 48)) else none)
      (some 0)

/-- `natOfChars` lifted to `String`. -/
def strToNat (s : String) : Option Nat := natOfChars s.data

theorem strLength_append (s t : String) : (s ++ t).length = s.length + t.length := by
  cases s with
  | mk a =>
    cases t with
    | mk b => exact List.length_append a b

theorem strTake_length (s : String) (n : Nat) : (strTake s n).length = min n s.length :=
  List.length_take n s.data

/-!
## Row normalisation helpers

`escapeEndOfLineForCsv` / `unescapeEndOfLineFromCsv` live in
`src/utils/workspace-util.ts`, which is not part of the provided sources.
-/

/-- Modelled from the spec: `escapeEndOfLineForCsv` of `workspace-util`
(not under `src/`): free-text fields store literal line breaks as a
reversible escape sequence; each newline character becomes the two-character
sequence backslash-`n`. -/
def escapeEol : List Char → List Char
  | [] => []
  | c :: rest => if c = '\n' then '\\' :: 'n' :: escapeEol rest else c :: escapeEol rest

/-- Modelled from the spec: `unescapeEndOfLineFromCsv` of `workspace-util`
(not under `src/`): each stored backslash-`n` escape sequence becomes a real
line break again. -/
def unescapeEol : List Char → List Char
  | [] => []
  | [c] => [c]
  | a :: b :: rest =>
    if a = '\\' ∧ b = 'n' then '\n' :: unescapeEol rest
    else a :: unescapeEol (b :: rest)

/-- `escapeEol` lifted to `String`. -/
def escapeEolStr (s : String) : String := String.mk (escapeEol s.data)

/-- `unescapeEol` lifted to `String`. -/
def unescapeEolStr (s : String) : String := String.mk (unescapeEol s.data)

/-!
## Data model

`CsvEntry` (`src/model.ts` / `interfaces.ts`): one parsed CSV row.  All CSV
cells arrive as strings; an absent optional cell is the empty string.  The
derived `code` field is `Option String`: `none` models an absent/`delete`d
`code` property, `some` a present one.
-/

structure CsvEntry where
  filename : String
  lines : String
  comment : String
  title : String
  category : String
  additional : String
  sha : String
  url : String
  priority : String
  code : Option String
deriving Repr, DecidableEq

/-- `GroupBy` / `Group` of `interfaces.ts`: the grouping key. -/
inductive Group
  | filename
  | category
deriving Repr, DecidableEq

/-- `ExportFormat` of `interfaces.ts`: the keys of `exportHandlerMap`. -/
inductive ExportFormat
  | html
  | gitlab
  | github
  | jira
  | json
deriving Repr, DecidableEq

/-- `ReviewFileExportSection` of `interfaces.ts`: one group produced by
`groupResults` (field `lines` holds the rows of the group). -/
structure ReviewFileExportSection where
  group : String
  lines : List CsvEntry
deriving Repr, DecidableEq

/-- `row[groupAttribute]` of `groupResults`. -/
def groupKey (row : CsvEntry) : Group → String
  | Group.filename => row.filename
  | Group.category => row.category

/-!
## Range-token sorting (`groupResults`, `src/src/export-factory.ts:347`)

`sortLineSelections` lives in `workspace-util` (not under `src/`).
-/

/-- Modelled from the spec: the start position of a range token
`startLine:startCol-endLine:endCol` as the pair `(startLine, startCol)`
(spec §4.3: ascending by start line, then start column). -/
def lineKey (tok : String) : Nat × Nat :=
  let start := (jsSplit tok '-').headD ""
  let parts := jsSplit start ':'
  ((strToNat (parts.headD "")).getD 0, (strToNat ((parts.drop 1).headD "")).getD 0)

/-- Modelled from the spec: the comparator `sortLineSelections` of
`workspace-util` (not under `src/`), as the total preorder it sorts by:
ascending start line, ties broken by ascending start column. -/
def lineLeP (a b : String) : Prop :=
  (lineKey a).1 < (lineKey b).1 ∨
    ((lineKey a).1 = (lineKey b).1 ∧ (lineKey a).2 ≤ (lineKey b).2)

instance : DecidableRel lineLeP := fun a b =>
  inferInstanceAs (Decidable (_ ∨ _ ∧ _))

instance : IsTotal String lineLeP :=
  ⟨fun a b => by unfold lineLeP; omega⟩

instance : IsTrans String lineLeP :=
  ⟨fun a b c ha hb => by unfold lineLeP at *; omega⟩

/-- The sorted token list of `row.lines.split('|').sort(sortLineSelections)`
(`src/src/export-factory.ts:347`). -/
def sortedTokens (lns : String) : List String :=
  List.insertionSort lineLeP (jsSplit lns '|')

/-- `row.lines.split('|').sort(sortLineSelections).join('|')`
(`src/src/export-factory.ts:347`). -/
def sortLines (lns : String) : String :=
  joinWith "|" (sortedTokens lns)

/-!
## Grouping (`groupResults`, `src/src/export-factory.ts:340-359`)
-/

/-- The per-row mutation performed by `groupResults` before the row is filed
into a group (`src/src/export-factory.ts:344-347`): default the category to
`"Other"` (JS `row.category || 'Other'`; the absent/empty cell is falsy) and
re-sort the range tokens of `lines`. -/
def normalizeRow (row : CsvEntry) : CsvEntry :=
  { row with
    category := if row.category = "" then "Other" else row.category
    lines := sortLines row.lines }

/-- `reviewExportData.find(...)`-then-`push` step of `groupResults`
(`src/src/export-factory.ts:348-356`): append the row to the first section
with a matching group key, or append a fresh section at the end. -/
def addRow (acc : List ReviewFileExportSection) (g : String) (row : CsvEntry) :
    List ReviewFileExportSection :=
  match acc with
  | [] => [⟨g, [row]⟩]
  | s :: rest =>
    if s.group = g then { s with lines := s.lines ++ [row] } :: rest
    else s :: addRow rest g row

/-- `groupResults` of the handler-map variant
(`src/src/export-factory.ts:340-359`): normalise each row in stream order and
file it into the section holding its group-key value, creating sections in
first-seen order. -/
def groupResults (rows : List CsvEntry) (groupAttribute : Group) :
    List ReviewFileExportSection :=
  rows.foldl
    (fun acc row =>
      let r := normalizeRow row
      addRow acc (groupKey r groupAttribute) r)
    []

/-!
## Orchestrator preprocessing (`exportForFormat`, `src/src/export-factory.ts:236-238`)
-/

/-- The mutation `row.comment = unescapeEndOfLineFromCsv(row.comment)` applied
by `exportForFormat`'s data callback to every parsed row before any handler
runs (`src/src/export-factory.ts:237`). -/
def preprocessRow (row : CsvEntry) : CsvEntry :=
  { row with comment := unescapeEolStr row.comment }

/-- The row value a format's `handleData` receives from `exportForFormat`
(`src/src/export-factory.ts:240-243`): the same preprocessed row for every
format of the handler map. -/
def handlerInputRow (fmt : ExportFormat) (row : CsvEntry) : CsvEntry :=
  match fmt with
  | ExportFormat.html => preprocessRow row
  | ExportFormat.gitlab => preprocessRow row
  | ExportFormat.github => preprocessRow row
  | ExportFormat.jira => preprocessRow row
  | ExportFormat.json => preprocessRow row

/-- `storeOutside` flag of each `exportHandlerMap` entry
(`src/src/export-factory.ts:34,73,106,142,185`). -/
def storeOutsideOf : ExportFormat → Bool
  | ExportFormat.html => true
  | ExportFormat.gitlab => false
  | ExportFormat.github => false
  | ExportFormat.jira => false
  | ExportFormat.json => true

/-- The body of `exportForFormat`'s `.on('data', ...)` callback
(`src/src/export-factory.ts:236-244`), with the handler's `handleData`
abstracted as a state-threading function `h` so that its per-invocation
effects are observable.  Returns the rows pushed onto the `data` buffer, the
callback's return value, and the final state.  (Because the real handlers
mutate and return their argument row, the second invocation's argument is the
first invocation's result.) -/
def onDataCallbackM {σ : Type} (storeOutside : Bool)
    (h : CsvEntry → σ → CsvEntry × σ) (row : CsvEntry) (s : σ) :
    (List CsvEntry × CsvEntry) × σ :=
  let row1 := preprocessRow row
  if storeOutside then
    let (tmp, s1) := h row1 s
    let (ret, s2) := h tmp s1
    (([tmp], ret), s2)
  else
    let (ret, s1) := h row1 s
    (([], ret), s1)

/-!
## Priority labels
-/

/-- `priorityName` of the handler-map variant
(`src/src/export-factory.ts:387-390`): index the configured
`code-review.priorities` array with the row's priority value.  A JS array
index access uses the canonical numeric string of the index; any other key,
and any index beyond the array, yields `undefined`, modelled as `none`. -/
def priorityName (priorityMap : List String) (priority : String) : Option String :=
  match strToNat priority with
  | some n => if toString n = priority then priorityMap.get? n else none
  | none => none

/-- `priorityName` of the duplicated-methods variant
(`src/unnamed/part_000:382-393`): a total switch over the priority string. -/
def priorityName000 (priority : String) : String :=
  if priority = "1" then "low"
  else if priority = "2" then "medium"
  else if priority = "3" then "high"
  else "none"

/-- The `switch (row.priority)` of `exportAsJiraCsv`
(`src/unnamed/part_000:300-315`): "JIRA prioritys are the other way around". -/
def jiraPriorityInverted (priority : String) : Nat :=
  if priority = "1" then 3
  else if priority = "2" then 2
  else if priority = "3" then 1
  else 3

/-- Rendering of a possibly-`undefined` value inside a JS template literal:
`undefined` prints as the string `"undefined"`. -/
def jsTemplate : Option String → String
  | some s => s
  | none => "undefined"

/-- The Priority column written by the handler-map variant's JIRA
`handleData` (`src/src/export-factory.ts:170`):
the configured label of the internal priority, unchanged. -/
def jiraPriorityColumnMap (priorityMap : List String) (priority : String) : String :=
  jsTemplate (priorityName priorityMap priority)

/-- The Priority column written by `exportAsJiraCsv` of the
duplicated-methods variant (`src/unnamed/part_000:300-319`). -/
def jiraPriorityColumn000 (priority : String) : String :=
  toString (jiraPriorityInverted priority)

/-!
## CSV-style renderers (handler-map variant)
-/

/-- Configuration and environment threaded into a renderer: the
`code-review.reportWithCodeSelection` flag, the `code-review.priorities`
lookup, and the file-system access performed by `getCodeForFile`
(abstracted as a function from filename and lines selector to the
extracted code). -/
structure ExportCfg where
  includeCode : Bool
  priorities : List String
  getCode : String → String → String

/-- The title derivation shared by the GitLab, GitHub and JIRA handlers
(`src/src/export-factory.ts:82-84`): `descShort` is the comment cut at 100
characters with a `"..."` marker appended when longer; the title is the
row's `title` cut at 255 characters when present (non-empty, i.e. truthy),
otherwise `descShort`. -/
def deriveTitle (title comment : String) : String :=
  let descShort := if comment.length > 100 then strTake comment 100 ++ "..." else comment
  if title ≠ "" then strTake title 255 else descShort

/-- The GitLab `handleData` (`src/src/export-factory.ts:77-96`): re-escape the
comment, set or delete `code`, derive the title, assemble the Markdown
description and the appended CSV line.  Returns the mutated row and the line
appended to the output file. -/
def gitlabHandleData (cfg : ExportCfg) (row0 : CsvEntry) : CsvEntry × String :=
  let row1 := { row0 with comment := escapeEolStr row0.comment }
  let row2 :=
    if cfg.includeCode then { row1 with code := some (cfg.getCode row1.filename row1.lines) }
    else { row1 with code := none }
  let title := deriveTitle row2.title row2.comment
  let fileRow :=
    if row2.url ≠ "" then "- file: [" ++ row2.filename ++ "](" ++ row2.url ++ ")" ++ EOL
    else row2.filename ++ EOL
  let linesRow := "- lines: " ++ row2.lines ++ EOL
  let shaRow := if row2.sha ≠ "" then "- SHA: " ++ row2.sha ++ EOL ++ EOL else ""
  let commentSection := "## Comment" ++ EOL ++ row2.comment ++ EOL
  let additional :=
    if row2.additional ≠ "" then "## Additional information" ++ EOL ++ row2.additional ++ EOL
    else ""
  let priority :=
    if row2.priority ≠ "" then
      "## Priority" ++ EOL ++ jsTemplate (priorityName cfg.priorities row2.priority) ++ EOL ++ EOL
    else ""
  let category :=
    if row2.category ≠ "" then "## Category" ++ EOL ++ row2.category ++ EOL ++ EOL else ""
  let code :=
    if row2.code.getD "" ≠ "" then
      EOL ++ "## Source Code" ++ EOL ++ EOL ++ "```" ++ EOL ++ row2.code.getD "" ++ "```" ++ EOL
    else ""
  let description :=
    priority ++ category ++ "## Affected" ++ EOL ++ fileRow ++ linesRow ++ shaRow ++
      commentSection ++ EOL ++ additional ++ code
  (row2, "\"[code review] " ++ title ++ "\",\"" ++ description ++ "\"" ++ EOL)

/-- The JSON `handleData` (`src/src/export-factory.ts:189-192`): set `code`
from `getCodeForFile` when code inclusion is enabled, otherwise
`delete row.code`. -/
def jsonHandleData (cfg : ExportCfg) (row : CsvEntry) : CsvEntry :=
  if cfg.includeCode then { row with code := some (cfg.getCode row.filename row.lines) }
  else { row with code := none }

/-- The buffered `data` array the JSON export serialises
(`src/src/export-factory.ts:189-196,236-247`): each parsed row is
preprocessed and passed through the JSON `handleData`, and the result is
pushed. -/
def jsonExportRows (cfg : ExportCfg) (rows : List CsvEntry) : List CsvEntry :=
  rows.map (fun r => jsonHandleData cfg (preprocessRow r))

/-!
## Code extraction (`getCodeForFile`, `src/unnamed/part_000:364-380`)

The file is modelled as its list of lines; `getFileContentForRange` lives in
`workspace-util`, which is not under `src/`.
-/

/-- Modelled from the spec: `getFileContentForRange` of `workspace-util`
(not under `src/`), line-range form (§4.1): the literal text of lines
`startLine` through `endLine` inclusive, 1-indexed, joined with line breaks. -/
def getFileContentForRange (fileLines : List String) (startLine endLine : Nat) : String :=
  joinWith EOL ((fileLines.drop (startLine - 1)).take (endLine - (startLine - 1)))

/-- The per-token extraction of `getCodeForFile`
(`src/unnamed/part_000:369-372`): split the token at `-`, keep the line
numbers of both positions, and read that line range. -/
def extractTok (fileLines : List String) (tok : String) : String :=
  let parts := jsSplit tok '-'
  let start := parts.headD ""
  let stop := (parts.drop 1).headD ""
  let startLine := (strToNat ((jsSplit start ':').headD "")).getD 0
  let endLine := (strToNat ((jsSplit stop ':').headD "")).getD 0
  getFileContentForRange fileLines startLine endLine

/-- The separator appended between spans
(`src/unnamed/part_000:374`): a `...` line framed by line breaks. -/
def spanSeparator : String := EOL ++ "..." ++ EOL ++ EOL

/-- `getCodeForFile` of the duplicated-methods variant
(`src/unnamed/part_000:364-380`): extract every `|`-separated token's line
range and concatenate, inserting `spanSeparator` whenever the accumulated
result is non-empty. -/
def getCodeForFile000 (fileLines : List String) (lines : String) : String :=
  (jsSplit lines '|').foldl
    (fun result tok =>
      let fileContent := extractTok fileLines tok
      if result ≠ "" then result ++ spanSeparator ++ fileContent else fileContent)
    ""

/-!
## Helper lemmas
-/

/-- All rows stored in a list of sections, in section order. -/
def sectionRows (secs : List ReviewFileExportSection) : List CsvEntry :=
  (secs.map (fun s => s.lines)).flatten

theorem sectionRows_addRow (acc : List ReviewFileExportSection) (g : String)
    (r : CsvEntry) :
    List.Perm (sectionRows (addRow acc g r)) (sectionRows acc ++ [r]) := by
  induction acc with
  | nil => simp [addRow, sectionRows]
  | cons s rest ih =>
    by_cases h : s.group = g
    · simp only [addRow, if_pos h]
      show List.Perm ((s.lines ++ [r]) ++ sectionRows rest)
        ((s.lines ++ sectionRows rest) ++ [r])
      rw [List.append_assoc, List.append_assoc]
      exact List.Perm.append_left _ List.perm_append_comm
    · simp only [addRow, if_neg h]
      show List.Perm (s.lines ++ sectionRows (addRow rest g r))
        ((s.lines ++ sectionRows rest) ++ [r])
      rw [List.append_assoc]
      exact List.Perm.append_left _ ih

theorem sectionRows_foldl (key : Group) (rows : List CsvEntry) :
    ∀ acc : List ReviewFileExportSection,
      List.Perm
        (sectionRows
          (rows.foldl
            (fun acc row =>
              let r := normalizeRow row
              addRow acc (groupKey r key) r)
            acc))
        (sectionRows acc ++ rows.map normalizeRow) := by
  induction rows with
  | nil => intro acc; simp
  | cons row rest ih =>
    intro acc
    simp only [List.foldl_cons, List.map_cons]
    refine (ih _).trans ?_
    refine ((sectionRows_addRow acc (groupKey (normalizeRow row) key)
      (normalizeRow row)).append_right (rest.map normalizeRow)).trans ?_
    rw [List.append_assoc]
    exact List.Perm.refl _

/-- Flattening the groups recovers the stream of normalised rows, as a
permutation. -/
theorem sectionRows_groupResults (rows : List CsvEntry) (key : Group) :
    List.Perm (sectionRows (groupResults rows key)) (rows.map normalizeRow) := by
  have h := sectionRows_foldl key rows []
  simpa [sectionRows, groupResults] using h

theorem unescapeEol_head (x : Char) (xs : List Char) :
    (unescapeEol (x :: xs)).head? = some x ∨ (unescapeEol (x :: xs)).head? = some '\n' := by
  cases xs with
  | nil => left; rfl
  | cons b rest =>
    by_cases h : x = '\\' ∧ b = 'n'
    · right; simp [unescapeEol, h]
    · left; simp [unescapeEol, h]

theorem unescapeEol_no_esc : ∀ l : List Char, ¬ ['\\', 'n'] <:+: unescapeEol l
  | [] => by
    intro h
    have := h.length_le
    simp [unescapeEol] at this
  | [c] => by
    intro h
    have := h.length_le
    simp [unescapeEol] at this
  | a :: b :: rest => by
    intro h
    by_cases hp : a = '\\' ∧ b = 'n'
    · rw [unescapeEol, if_pos hp] at h
      rcases List.infix_cons_iff.mp h with hpre | htail
      · rcases (List.cons_prefix_cons.mp hpre).1 with h1
        exact absurd h1 (by decide)
      · exact unescapeEol_no_esc rest htail
    · rw [unescapeEol, if_neg hp] at h
      rcases List.infix_cons_iff.mp h with hpre | htail
      · obtain ⟨h1, h2⟩ := List.cons_prefix_cons.mp hpre
        obtain ⟨t, ht⟩ := h2
        have hhead : (unescapeEol (b :: rest)).head? = some 'n' := by
          rw [← ht]; rfl
        rcases unescapeEol_head b rest with hb | hn
        · rw [hhead] at hb
          exact hp ⟨h1.symm, (Option.some_injective _ hb).symm⟩
        · rw [hhead] at hn
          exact absurd (Option.some_injective _ hn) (by decide)
      · exact unescapeEol_no_esc (b :: rest) htail

/-!
## Concrete fixtures
-/

/-- A row with an absent (empty) `category` cell. -/
def rowNoCategory : CsvEntry :=
  { filename := "a.ts", lines := "1:0-1:4", comment := "hi", title := "",
    category := "", additional := "", sha := "", url := "", priority := "",
    code := none }

/-- A configuration with code inclusion disabled and the default
`code-review.priorities` labels. -/
def cfgNoCode : ExportCfg :=
  { includeCode := false, priorities := ["none", "low", "medium", "high"],
    getCode := fun _ _ => "" }

/-!
## Claims
-/

/-- C2: for every sequence of rows, grouping by `filename` and concatenating
the groups' row lists in group order yields exactly one processed row per
input row — a permutation of the stream of (in-place normalised) rows, hence
no row is dropped and no row is duplicated.  (`groupResults` mutates each row
in place — category default, range-token sort — so the objects in the groups
are the input rows themselves.) -/
theorem groupResults_flatten_is_original_multiset (rows : List CsvEntry) :
    List.Perm (sectionRows (groupResults rows Group.filename)) (rows.map normalizeRow) ∧
      (sectionRows (groupResults rows Group.filename)).length = rows.length := by
  refine ⟨sectionRows_groupResults rows Group.filename, ?_⟩
  rw [(sectionRows_groupResults rows Group.filename).length_eq, List.length_map]

/-- C3: the title derivation shared by the GitLab, GitHub and JIRA handlers:
a non-empty `title` is cut to at most 255 characters; otherwise a comment
longer than 100 characters yields its first 100 characters plus the
3-character ellipsis marker (103 characters in total), and a comment of at
most 100 characters is used unchanged. -/
theorem csv_title_truncation (t c : String) :
    (t ≠ "" → deriveTitle t c = strTake t 255 ∧ (deriveTitle t c).length ≤ 255) ∧
      (t = "" → 100 < c.length →
        deriveTitle t c = strTake c 100 ++ "..." ∧ (deriveTitle t c).length = 103) ∧
      (t = "" → c.length ≤ 100 → deriveTitle t c = c) := by
  refine ⟨fun h => ?_, fun h hc => ?_, fun h hc => ?_⟩
  · refine ⟨by simp [deriveTitle, h], ?_⟩
    simp only [deriveTitle, if_pos h, ne_eq, h, not_false_eq_true, if_true]
    rw [strTake_length]
    omega
  · subst h
    have hif : ¬ (("" : String) ≠ "") := by simp
    refine ⟨by simp [deriveTitle, hc], ?_⟩
    simp only [deriveTitle, if_neg hif, if_pos hc]
    rw [strLength_append, strTake_length]
    have h3 : ("..." : String).length = 3 := rfl
    omega
  · subst h
    have hif : ¬ (("" : String) ≠ "") := by simp
    have hc2 : ¬ (100 < c.length) := by omega
    simp [deriveTitle, hif, hc2]

/-- Witness for C3 at concrete inputs: a set title passes through, a
101-character comment is cut to 100 plus the marker, a short comment is kept
verbatim. -/
theorem csv_title_truncation_witness :
    deriveTitle "Fix this" "hello" = "Fix this" ∧
      (deriveTitle "" (String.mk (List.replicate 101 'x'))).length = 103 ∧
      deriveTitle "" "short comment" = "short comment" := by
  refine ⟨?_, ?_, ?_⟩
  · have h := (csv_title_truncation "Fix this" "hello").1 (by decide)
    rw [h.1]; decide
  · exact ((csv_title_truncation "" (String.mk (List.replicate 101 'x'))).2.1 rfl
      (by decide)).2
  · exact (csv_title_truncation "" "short comment").2.2 rfl (by decide)

/-- C4: every row handed by `exportForFormat` to a format's `handleData` has
its `comment` already run through `unescapeEndOfLineFromCsv`, and the text
the handler receives contains no remaining end-of-line escape sequence:
every stored escape has become a real line break. -/
theorem comment_unescaped_before_renderer (fmt : ExportFormat) (row : CsvEntry) :
    (handlerInputRow fmt row).comment = unescapeEolStr row.comment ∧
      ¬ ['\\', 'n'] <:+: (handlerInputRow fmt row).comment.data := by
  refine ⟨?_, ?_⟩
  · cases fmt <;> rfl
  · cases fmt <;> exact unescapeEol_no_esc row.comment.data

/-- C1, counterexample: grouping by `category` does NOT leave the range
tokens unmodified — `groupResults` re-sorts every row's `lines` tokens
unconditionally (`src/src/export-factory.ts:347`), for every grouping key.
A row with out-of-order tokens grouped by `category` comes back with its
tokens re-ordered. -/
theorem groupResults_category_reorders_tokens :
    groupResults
        [{ filename := "a.ts", lines := "3:0-3:4|1:0-1:4", comment := "c",
           title := "", category := "X", additional := "", sha := "", url := "",
           priority := "1", code := none }] Group.category =
      [⟨"X",
        [{ filename := "a.ts", lines := "1:0-1:4|3:0-3:4", comment := "c",
           title := "", category := "X", additional := "", sha := "", url := "",
           priority := "1", code := none }]⟩] ∧
      ("1:0-1:4|3:0-3:4" : String) ≠ "3:0-3:4|1:0-1:4" := by
  refine ⟨by decide, by decide⟩

/-- C1, amended: `groupResults` re-sorts each grouped row's `lines` range
tokens into ascending `(startLine, startCol)` order for EVERY grouping key,
not only for `filename`: every row of every group carries the sorted form of
its original `lines`, and the sorted token sequence is ascending. -/
theorem grouped_rows_have_sorted_tokens :
    (∀ (rows : List CsvEntry) (key : Group) (r : CsvEntry),
        r ∈ sectionRows (groupResults rows key) →
          ∃ o ∈ rows, r.lines = sortLines o.lines) ∧
      ∀ lns : String, List.Sorted lineLeP (sortedTokens lns) := by
  refine ⟨?_, ?_⟩
  · intro rows key r hr
    have hmem : r ∈ rows.map normalizeRow :=
      (sectionRows_groupResults rows key).mem_iff.mp hr
    obtain ⟨o, ho, rfl⟩ := List.mem_map.mp hmem
    exact ⟨o, ho, rfl⟩
  · intro lns
    exact List.sorted_insertionSort lineLeP (jsSplit lns '|')

/-- Witness for C1's amended statement at a concrete input grouped by
`category`. -/
theorem grouped_rows_have_sorted_tokens_witness :
    (∃ o ∈ [{ filename := "a.ts", lines := "3:0-3:4|1:0-1:4", comment := "c",
              title := "", category := "X", additional := "", sha := "", url := "",
              priority := "1", code := none : CsvEntry }],
        (normalizeRow
          { filename := "a.ts", lines := "3:0-3:4|1:0-1:4", comment := "c",
            title := "", category := "X", additional := "", sha := "", url := "",
            priority := "1", code := none }).lines = sortLines o.lines) ∧
      List.Sorted lineLeP (sortedTokens "3:0-3:4|1:0-1:4") := by
  refine ⟨?_, grouped_rows_have_sorted_tokens.2 "3:0-3:4|1:0-1:4"⟩
  exact grouped_rows_have_sorted_tokens.1 _ Group.category _ (by decide)

/-- C5, counterexample: the `"Other"` default is NOT applied before every
renderer consumes a row.  The GitLab handler receives the raw row straight
from `exportForFormat` and reads its unmodified empty `category`
(`src/src/export-factory.ts:91`): the row as held by the renderer still has
`category = ""`, and the rendered CSV line mentions no category at all. -/
theorem gitlab_consumes_raw_empty_category :
    (gitlabHandleData cfgNoCode (handlerInputRow ExportFormat.gitlab rowNoCategory)).1.category
        = "" ∧
      ("" : String) ≠ "Other" ∧
      (gitlabHandleData cfgNoCode (handlerInputRow ExportFormat.gitlab rowNoCategory)).2 =
        "\"[code review] hi\",\"## Affected\na.ts\n- lines: 1:0-1:4\n## Comment\nhi\n\n\"\n" := by
  refine ⟨by decide, by decide, by decide⟩

/-- C5, amended: the `"Other"` default is applied by `groupResults`
(`src/src/export-factory.ts:344`), i.e. on the grouped rows the HTML renderer
consumes: every grouped row's category is non-empty, and equals the original
category with the empty case replaced by `"Other"`.  Streamed CSV renderers
and the JSON renderer, which bypass `groupResults`, consume the raw
category. -/
theorem grouping_defaults_category (rows : List CsvEntry) (key : Group)
    (r : CsvEntry) (hr : r ∈ sectionRows (groupResults rows key)) :
    r.category ≠ "" ∧
      ∃ o ∈ rows, r.category = if o.category = "" then "Other" else o.category := by
  have hmem : r ∈ rows.map normalizeRow :=
    (sectionRows_groupResults rows key).mem_iff.mp hr
  obtain ⟨o, ho, rfl⟩ := List.mem_map.mp hmem
  refine ⟨?_, ⟨o, ho, rfl⟩⟩
  show (if o.category = "" then "Other" else o.category) ≠ ""
  by_cases h : o.category = ""
  · simp [h]
  · simp [h]

/-- Witness for C5's amended statement: grouping a category-less row yields
the category `"Other"`. -/
theorem grouping_defaults_category_witness :
    (normalizeRow rowNoCategory).category ≠ "" ∧
      ∃ o ∈ [rowNoCategory],
        (normalizeRow rowNoCategory).category =
          if o.category = "" then "Other" else o.category :=
  grouping_defaults_category [rowNoCategory] Group.filename
    (normalizeRow rowNoCategory) (by decide)

/-- C6, counterexample: the handler-map variant's `priorityName`
(`src/src/export-factory.ts:387-390`) is a bare array index into the
configured lookup: an out-of-range priority (`"7"` against the default
four-entry table) and an absent priority (`""`) both yield `undefined`
(modelled `none`) — not an "unset" label. -/
theorem priorityName_out_of_range_undefined :
    priorityName ["none", "low", "medium", "high"] "7" = none ∧
      priorityName ["none", "low", "medium", "high"] "" = none := by
  refine ⟨by decide, by decide⟩

/-- C6, amended: the switch-based `priorityName` of the duplicated-methods
variant (`src/unnamed/part_000:382-393`) is total: `"1"`/`"2"`/`"3"` map to
their labels and every other value — out-of-range or absent — maps to the
"unset" label `"none"`.  The handler-map variant's lookup instead yields an
undefined result for out-of-range or absent priorities. -/
theorem priorityName000_total_with_unset_default :
    priorityName000 "1" = "low" ∧ priorityName000 "2" = "medium" ∧
      priorityName000 "3" = "high" ∧
      ∀ p : String, p ≠ "1" → p ≠ "2" → p ≠ "3" → priorityName000 p = "none" := by
  refine ⟨rfl, rfl, rfl, ?_⟩
  intro p h1 h2 h3
  simp [priorityName000, h1, h2, h3]

/-- Witness for C6's amended statement: an out-of-range and an absent
priority both get the "unset" label. -/
theorem priorityName000_total_with_unset_default_witness :
    priorityName000 "7" = "none" ∧ priorityName000 "" = "none" :=
  ⟨priorityName000_total_with_unset_default.2.2.2 "7" (by decide) (by decide) (by decide),
    priorityName000_total_with_unset_default.2.2.2 "" (by decide) (by decide) (by decide)⟩

/-- C7: the duplicated-methods variant's JIRA export inverts the internal
priority scale (`'1' ↦ 3`, `'2' ↦ 2`, `'3' ↦ 1`, anything else `↦ 3`,
`src/unnamed/part_000:300-315`), while the handler-map variant writes the
configured label of the internal priority unchanged
(`src/src/export-factory.ts:170`); on the row with priority `"1"` under the
default label table the two Priority columns differ, so the per-row
transforms are not equivalent. -/
theorem jira_priority_variants_not_equivalent :
    jiraPriorityColumn000 "1" = "3" ∧ jiraPriorityColumn000 "2" = "2" ∧
      jiraPriorityColumn000 "3" = "1" ∧
      (∀ p : String, p ≠ "1" → p ≠ "2" → p ≠ "3" → jiraPriorityColumn000 p = "3") ∧
      jiraPriorityColumnMap ["none", "low", "medium", "high"] "1" = "low" ∧
      jiraPriorityColumn000 "1" ≠
        jiraPriorityColumnMap ["none", "low", "medium", "high"] "1" := by
  refine ⟨rfl, rfl, rfl, ?_, by decide, by decide⟩
  intro p h1 h2 h3
  simp [jiraPriorityColumn000, jiraPriorityInverted, h1, h2, h3]
  rfl

/-- Witness for C7 at a concrete out-of-scale priority. -/
theorem jira_priority_variants_not_equivalent_witness :
    jiraPriorityColumn000 "9" = "3" :=
  jira_priority_variants_not_equivalent.2.2.2.1 "9" (by decide) (by decide) (by decide)

/-- C8, counterexample: `getCodeForFile` inserts the `...` separator between
ADJACENT spans too.  Lines 1 and 2 of the file are adjacent
(`2 = 1 + 1`), yet the extraction of `1:0-1:3|2:0-2:3` carries the separator
between the two spans instead of concatenating them directly. -/
theorem adjacent_spans_still_get_separator :
    getCodeForFile000 ["line one", "line two"] "1:0-1:3|2:0-2:3" =
        "line one" ++ spanSeparator ++ "line two" ∧
      getCodeForFile000 ["line one", "line two"] "1:0-1:3|2:0-2:3" ≠
        "line one" ++ EOL ++ "line two" ∧
      (2 : Nat) = 1 + 1 := by
  refine ⟨by decide, by decide, rfl⟩

/-- The tail of a separator-join: each element prefixed by the separator. -/
def sepJoinTail (sep : String) : List String → String
  | [] => ""
  | s :: rest => sep ++ s ++ sepJoinTail sep rest

theorem strNeEmpty (s : String) (h : 0 < s.length) : s ≠ "" := by
  intro he
  rw [he] at h
  exact Nat.lt_irrefl 0 h

theorem joinWith_cons_eq (sep s : String) (l : List String) :
    joinWith sep (s :: l) = s ++ sepJoinTail sep l := by
  induction l generalizing s with
  | nil => exact (String.append_empty s).symm
  | cons b r ih =>
    show s ++ sep ++ joinWith sep (b :: r) = s ++ sepJoinTail sep (b :: r)
    rw [ih b]
    simp only [sepJoinTail, String.append_assoc]

theorem foldl_sep_acc (fileLines : List String) (toks : List String) :
    ∀ acc : String, acc ≠ "" →
      toks.foldl
          (fun result tok =>
            let fileContent := extractTok fileLines tok
            if result ≠ "" then result ++ spanSeparator ++ fileContent
            else fileContent)
          acc =
        acc ++ sepJoinTail spanSeparator (toks.map (extractTok fileLines)) := by
  induction toks with
  | nil =>
    intro acc hacc
    simp only [List.foldl_nil, List.map_nil, sepJoinTail]
    exact (String.append_empty acc).symm
  | cons t rest ih =>
    intro acc hacc
    simp only [List.foldl_cons, List.map_cons]
    rw [if_pos hacc]
    have hacc2 : acc ++ spanSeparator ++ extractTok fileLines t ≠ "" := by
      apply strNeEmpty
      rw [strLength_append, strLength_append]
      have hsep : 0 < spanSeparator.length := by decide
      omega
    rw [ih _ hacc2]
    simp only [sepJoinTail, String.append_assoc]

/-- C8, amended: for every compound selector — any number of spans — whose
spans each extract non-empty text, the result is the extracted spans joined
with the separator marker between EVERY pair of consecutive spans:
`getCodeForFile` never compares the spans' positions, so adjacency plays no
role (`src/unnamed/part_000:373-377`). -/
theorem separator_inserted_unconditionally (fileLines : List String)
    (lns : String)
    (hne : ∀ t ∈ jsSplit lns '|', extractTok fileLines t ≠ "") :
    getCodeForFile000 fileLines lns =
      joinWith spanSeparator ((jsSplit lns '|').map (extractTok fileLines)) := by
  unfold getCodeForFile000
  cases h : jsSplit lns '|' with
  | nil => rfl
  | cons t rest =>
    rw [h] at hne
    have ht : extractTok fileLines t ≠ "" := hne t (List.mem_cons_self t rest)
    simp only [List.foldl_cons, List.map_cons]
    rw [if_neg (show ¬ (("" : String) ≠ "") by simp), joinWith_cons_eq]
    exact foldl_sep_acc fileLines rest (extractTok fileLines t) ht

/-- Witness for C8's amended statement on a three-span selector of adjacent
lines: the separator appears between both consecutive pairs. -/
theorem separator_inserted_unconditionally_witness :
    getCodeForFile000 ["aa", "bb", "cc"] "1:0-1:1|2:0-2:1|3:0-3:1" =
        joinWith spanSeparator
          ((jsSplit "1:0-1:1|2:0-2:1|3:0-3:1" '|').map
            (extractTok ["aa", "bb", "cc"])) ∧
      getCodeForFile000 ["aa", "bb", "cc"] "1:0-1:1|2:0-2:1|3:0-3:1" =
        "aa" ++ spanSeparator ++ "bb" ++ spanSeparator ++ "cc" :=
  ⟨separator_inserted_unconditionally ["aa", "bb", "cc"] "1:0-1:1|2:0-2:1|3:0-3:1"
      (by decide),
    by decide⟩

/-- C9: with code inclusion disabled, every row object in the buffered array
the JSON export serialises has its `code` property deleted (`none`): the
output array contains no row with a `code` key. -/
theorem json_export_no_code_key (cfg : ExportCfg) (rows : List CsvEntry)
    (r : CsvEntry) (hcode : cfg.includeCode = false)
    (hr : r ∈ jsonExportRows cfg rows) : r.code = none := by
  obtain ⟨o, _, rfl⟩ := List.mem_map.mp hr
  simp [jsonHandleData, hcode]

/-- Witness for C9 on a concrete row set. -/
theorem json_export_no_code_key_witness :
    (jsonHandleData cfgNoCode (preprocessRow rowNoCategory)).code = none :=
  json_export_no_code_key cfgNoCode [rowNoCategory] _ rfl
    (by simp [jsonExportRows])

/-- C10: the HTML and JSON descriptors have `storeOutside = true`, and for
every such format `exportForFormat`'s data callback invokes the descriptor's
`handleData` twice per parsed row (`src/src/export-factory.ts:239-243`): the
first result fills the buffered array, the second is the callback's return
value, and any per-row effect — here made observable as a state counter —
happens twice. -/
theorem storeOutside_handleData_invoked_twice :
    storeOutsideOf ExportFormat.html = true ∧
      storeOutsideOf ExportFormat.json = true ∧
      ∀ (fmt : ExportFormat) (g : CsvEntry → CsvEntry) (row : CsvEntry) (n : Nat),
        storeOutsideOf fmt = true →
        onDataCallbackM (storeOutsideOf fmt) (fun r k => (g r, k + 1)) row n =
          (([g (preprocessRow row)], g (g (preprocessRow row))), n + 2) := by
  refine ⟨rfl, rfl, ?_⟩
  intro fmt g row n h
  rw [h]
  rfl

/-- Witness for C10: the HTML descriptor's callback steps the invocation
counter from 0 to 2 on a concrete row. -/
theorem storeOutside_handleData_invoked_twice_witness :
    onDataCallbackM (storeOutsideOf ExportFormat.html)
        (fun r k => (id r, k + 1)) rowNoCategory 0 =
      (([id (preprocessRow rowNoCategory)],
        id (id (preprocessRow rowNoCategory))), 0 + 2) :=
  storeOutside_handleData_invoked_twice.2.2 ExportFormat.html id rowNoCategory 0 rfl

end CodeReview
